import Mathlib

/-!
Shallow embedding of `src/util/MongoBinaryDownloadUrl.js` (mongodb-memory-server).

The module is a pure string computation: given a configuration
(version, platform, arch, ssl, optional OS descriptor) it normalizes the
platform and architecture (throwing on unsupported values), maps a Linux
distribution descriptor to a version qualifier, and assembles the archive
file name and download URL.

Modelling conventions:
- JavaScript `throw` is modelled with `Except String`, carrying the exact
  message string of the thrown `Error` (for the `TypeError` raised by a
  property access on `undefined`, a fixed descriptive message).
- `undefined`/optional values are `Option`; JS string truthiness
  (`undefined`, `null` and `""` are falsy) is made explicit at each use site.
- `parseInt(s, 10)` and `parseFloat(s)` are modelled by `jsParseInt` /
  `jsParseFloat`; `NaN` is `none`, so every numeric comparison against `NaN`
  is `false`, matching JS.  `jsParseFloat` returns the parsed decimal exactly,
  as a mantissa and a power-of-ten fraction length (`DecFloat`); exponent
  notation and `Infinity`, which never occur in OS release strings, are not
  part of the modelled literal grammar.
- The regular-expression tests of the source (`/ubuntu/i.test(dist)` etc.)
  are case-insensitive substring tests, modelled by `reTestI`; the anchored
  patterns (`/^7/`, `/(^11|^12)/`) are prefix tests on the character list.
- The asynchronous `getos()` probe is an explicit `probe : Except String OS`
  argument: the probe either yields a descriptor or fails, and its error is
  propagated unchanged.  The mutation of `this.os` inside `getArchiveName`
  is modelled by returning the updated instance alongside the result.
-/

/-- The `getos()` result type: distribution name and optional release. -/
structure OS where
  dist : String
  release : Option String
deriving DecidableEq, Repr

/-- Resolver instance state: the fields set by the constructor. -/
structure MongoBinaryDownloadUrl where
  platform : String
  arch : String
  ssl : Bool
  version : String
  os : Option OS
deriving DecidableEq, Repr

/-- `const DOWNLOAD_URI = 'https://downloads.mongodb.org'`. -/
def DOWNLOAD_URI : String := "https://downloads.mongodb.org"

/-- ASCII lower-casing of one character, the effect of the `i` regex flag on
the ASCII patterns used by the source. -/
def lowerChar (c : Char) : Char := c.toLower

/-- Case-insensitive substring containment on character lists. -/
def listContainsSub (hay pat : List Char) : Bool :=
  match hay with
  | [] => pat.isEmpty
  | _ :: t => pat.isPrefixOf hay || listContainsSub t pat

/-- `/pat/i.test(s)` for a literal lowercase ASCII pattern `pat`:
case-insensitive substring test. -/
def reTestI (pat : String) (s : String) : Bool :=
  listContainsSub (s.data.map lowerChar) pat.data

/-- `/^pat/.test(s)`: anchored prefix test. -/
def reTestStart (pat : String) (s : String) : Bool :=
  pat.data.isPrefixOf s.data

/-- Numeric value of a list of ASCII digits, most significant first. -/
def digitsVal (ds : List Char) : Nat :=
  ds.foldl (fun a c => a * 10 + (c.toNat - 48)) 0

/-- JS whitespace skipped by `parseInt`/`parseFloat`. -/
def wsChar (c : Char) : Bool :=
  c = ' ' || c = '\t' || c = '\n' || c = '\r'

/-- Digit run at the front of `cs`: `none` when there is no digit
(`parseInt` returns `NaN`), else the parsed value. -/
def leadingDigits (cs : List Char) : Option Nat :=
  let ds := cs.takeWhile Char.isDigit
  if ds.isEmpty then none else some (digitsVal ds)

/-- `parseInt(s, 10)`: skip whitespace, optional sign, leading digit run;
`none` models `NaN`. -/
def jsParseIntStr (s : String) : Option Int :=
  let cs := s.data.dropWhile wsChar
  match cs with
  | '-' :: rest => (leadingDigits rest).map (fun n => -(n : Int))
  | '+' :: rest => (leadingDigits rest).map (fun n => (n : Int))
  | _ => (leadingDigits cs).map (fun n => (n : Int))

/-- `parseInt(x, 10)` where `x` may be `undefined`
(`parseInt(undefined, 10)` is `NaN`). -/
def jsParseInt (s : Option String) : Option Int :=
  match s with
  | none => none
  | some s => jsParseIntStr s

/-- Exact value of a parsed decimal literal: `mant / 10 ^ fracLen`. -/
structure DecFloat where
  mant : Int
  fracLen : Nat
deriving DecidableEq, Repr

/-- `x ≥ num / den` for a positive denominator `den`, decided exactly on
integers (`8.1` is written `DecFloat.ge x 81 10`). -/
def DecFloat.ge (x : DecFloat) (num : Int) (den : Int) : Bool :=
  x.mant * den ≥ num * 10 ^ x.fracLen

/-- Magnitude part of a `parseFloat` literal: digits, optionally a dot and
more digits; at least one digit overall, else `NaN`. -/
def floatMag (cs : List Char) : Option DecFloat :=
  let ds := cs.takeWhile Char.isDigit
  let rest := cs.dropWhile Char.isDigit
  match rest with
  | '.' :: rest2 =>
    let fs := rest2.takeWhile Char.isDigit
    if ds.isEmpty && fs.isEmpty then none
    else some ⟨(digitsVal ds) * 10 ^ fs.length + digitsVal fs, fs.length⟩
  | _ => if ds.isEmpty then none else some ⟨digitsVal ds, 0⟩

/-- `parseFloat(s)`: skip whitespace, optional sign, decimal magnitude;
`none` models `NaN`. -/
def jsParseFloatStr (s : String) : Option DecFloat :=
  let cs := s.data.dropWhile wsChar
  match cs with
  | '-' :: rest => (floatMag rest).map (fun x => ⟨-x.mant, x.fracLen⟩)
  | '+' :: rest => floatMag rest
  | _ => floatMag cs

/-- `parseFloat(x)` where `x` may be `undefined` (`parseFloat(undefined)`
is `NaN`). -/
def jsParseFloat (s : Option String) : Option DecFloat :=
  match s with
  | none => none
  | some s => jsParseFloatStr s

/-- `getDebianVersionString`: `parseFloat(os.release)`; `>= 8.1 → "81"`,
else `>= 7.1 → "71"`, else nothing appended to `"debian"`; a `NaN` parse
(also a missing release) satisfies neither comparison. -/
def getDebianVersionString (os : OS) : String :=
  let name := "debian"
  match jsParseFloat os.release with
  | none => name
  | some release =>
    if release.ge 81 10 then name ++ "81"
    else if release.ge 71 10 then name ++ "71"
    else name

/-- `getFedoraVersionString`: `parseInt(os.release, 10)`; `> 18 → "70"`,
`< 19 && >= 12 → "62"`, `< 12 && >= 6 → "55"`, else nothing appended to
`"rhel"`; a `NaN` parse satisfies no comparison. -/
def getFedoraVersionString (os : OS) : String :=
  let name := "rhel"
  match jsParseInt os.release with
  | none => name
  | some fedoraVer =>
    if fedoraVer > 18 then name ++ "70"
    else if fedoraVer < 19 ∧ fedoraVer ≥ 12 then name ++ "62"
    else if fedoraVer < 12 ∧ fedoraVer ≥ 6 then name ++ "55"
    else name

/-- `getRhelVersionString`: when `os.release` is truthy, prefix tests
`/^7/ → "70"`, `/^6/ → "62"`, `/^5/ → "55"` appended to `"rhel"`. -/
def getRhelVersionString (os : OS) : String :=
  let name := "rhel"
  match os.release with
  | none => name
  | some release =>
    if release ≠ "" then
      if reTestStart "7" release then name ++ "70"
      else if reTestStart "6" release then name ++ "62"
      else if reTestStart "5" release then name ++ "55"
      else name
    else name

/-- `getElementaryOSVersionString`: constant. -/
def getElementaryOSVersionString (_os : OS) : String := "ubuntu1404"

/-- `getMintVersionString`: constant (getos has no Mint release). -/
def getMintVersionString (_os : OS) : String := "ubuntu1404"

/-- `getLegacyVersionString`: constant empty qualifier. -/
def getLegacyVersionString (_os : OS) : String := ""

/-- `getSuseVersionString`: `os.release.match(/(^11|^12)/)`.  A missing
release makes the property access on `undefined` throw a `TypeError`; a
present release yields `"suse11"`/`"suse12"` on a matching prefix and `""`
otherwise. -/
def getSuseVersionString (os : OS) : Except String String :=
  match os.release with
  | none => .error "TypeError: Cannot read property 'match' of undefined"
  | some rel =>
    if reTestStart "11" rel then .ok "suse11"
    else if reTestStart "12" rel then .ok "suse12"
    else .ok ""

/-- `os.release.split('.')` on the character list (JS `String.split` with a
single-character separator). -/
def splitDot : List Char → List String
  | [] => [""]
  | c :: t =>
    if c = '.' then "" :: splitDot t
    else
      match splitDot t with
      | [] => [String.mk [c]]
      | s :: rest => String.mk (c :: s.data) :: rest

/-- `getUbuntuVersionString`: exact-match special cases, then the major
version (portion before the first `.`, `parseInt`ed), then the `"1404"`
default.  `os.release ? os.release.split('.') : []` guards on string
truthiness, and `parseInt(undefined, 10)` is `NaN` (`none`). -/
def getUbuntuVersionString (os : OS) : String :=
  let name := "ubuntu"
  let ubuntuVer : List String :=
    match os.release with
    | some r => if r ≠ "" then splitDot r.data else []
    | none => []
  let majorVer : Option Int := jsParseInt ubuntuVer.head?
  if os.release = some "12.04" then name ++ "1204"
  else if os.release = some "14.04" then name ++ "1404"
  else if os.release = some "14.10" then name ++ "1410-clang"
  else if majorVer = some 14 then name ++ "1404"
  else if os.release = some "16.04" then name ++ "1604"
  else if majorVer = some 16 then name ++ "1604"
  else name ++ "1404"

/-- The dist tests of `getLinuxOSVersionString`, in source order; true when
some branch other than the legacy fallback is taken. -/
def knownDist (dist : String) : Bool :=
  reTestI "ubuntu" dist || reTestI "elementary os" dist || reTestI "suse" dist ||
    reTestI "rhel" dist || reTestI "centos" dist || reTestI "scientific" dist ||
    reTestI "fedora" dist || reTestI "debian" dist || reTestI "mint" dist

/-- `console.warn` fires exactly on the fallthrough branch of
`getLinuxOSVersionString`. -/
def linuxWarningLogged (os : OS) : Bool :=
  !knownDist os.dist

/-- `getLinuxOSVersionString`: dispatch on case-insensitive dist tests in
source order; unknown distributions warn and use the legacy fallback.  The
result is `Except` because the Suse branch can throw. -/
def getLinuxOSVersionString (os : OS) : Except String String :=
  if reTestI "ubuntu" os.dist then .ok (getUbuntuVersionString os)
  else if reTestI "elementary os" os.dist then .ok (getElementaryOSVersionString os)
  else if reTestI "suse" os.dist then getSuseVersionString os
  else if reTestI "rhel" os.dist || reTestI "centos" os.dist ||
      reTestI "scientific" os.dist then .ok (getRhelVersionString os)
  else if reTestI "fedora" os.dist then .ok (getFedoraVersionString os)
  else if reTestI "debian" os.dist then .ok (getDebianVersionString os)
  else if reTestI "mint" os.dist then .ok (getMintVersionString os)
  else .ok (getLegacyVersionString os)

/-- `os && os.dist === 'Raspbian'` in `translatePlatform`. -/
def osIsRaspbian (os : Option OS) : Bool :=
  match os with
  | some o => o.dist = "Raspbian"
  | none => false

/-- `translatePlatform`: Raspbian override to `"src"`, then the platform
switch; the default case throws `unsupported OS ${platform}`. -/
def translatePlatform (platform : String) (os : Option OS) : Except String String :=
  if osIsRaspbian os then .ok "src"
  else if platform = "darwin" then .ok "osx"
  else if platform = "win32" then .ok "win32"
  else if platform = "linux" then .ok "linux"
  else if platform = "elementary OS" then .ok "linux"
  else if platform = "sunos" then .ok "sunos5"
  else .error ("unsupported OS " ++ platform)

/-- `translateArch`: `ia32` is allowed only on `linux` (`i686`) and `win32`
(`i386`); `x64` maps to `x86_64`; anything else throws. -/
def translateArch (arch : String) (mongoPlatform : String) : Except String String :=
  if arch = "ia32" then
    if mongoPlatform = "linux" then .ok "i686"
    else if mongoPlatform = "win32" then .ok "i386"
    else .error "unsupported architecture"
  else if arch = "x64" then .ok "x86_64"
  else .error "unsupported architecture, ia32 and x64 are the only valid options"

/-- Constructor options (`ssl` and `os` optional in the source). -/
structure MongoBinaryDownloadUrlOpts where
  version : String
  platform : String
  arch : String
  ssl : Bool
  os : Option OS
deriving DecidableEq, Repr

/-- The constructor: normalize platform (against the raw `os` option), then
arch (against the normalized platform); store ssl, version and os. -/
def mkMongoBinaryDownloadUrl (opts : MongoBinaryDownloadUrlOpts) :
    Except String MongoBinaryDownloadUrl :=
  match translatePlatform opts.platform opts.os with
  | .error e => .error e
  | .ok platform =>
    match translateArch opts.arch platform with
    | .error e => .error e
    | .ok arch =>
      .ok { platform := platform, arch := arch, ssl := opts.ssl,
            version := opts.version, os := opts.os }

/-- `getArchiveType`: `win32 → zip`, `src → tar.gz`, default `tgz`. -/
def getArchiveType (self : MongoBinaryDownloadUrl) : String :=
  if self.platform = "win32" then "zip"
  else if self.platform = "src" then "tar.gz"
  else "tgz"

/-- `if (!this.os) this.os = await this.getos();` — use the stored
descriptor, else invoke the probe and cache its result; a probe failure
propagates. -/
def resolveOS (self : MongoBinaryDownloadUrl) (probe : Except String OS) :
    Except String (OS × MongoBinaryDownloadUrl) :=
  match self.os with
  | some os => .ok (os, self)
  | none =>
    match probe with
    | .ok os => .ok (os, { self with os := some os })
    | .error e => .error e

/-- The OS-string step of `getArchiveName` (`let osString; if platform is
linux and arch not i686, resolve the descriptor and map it`): yields the
computed qualifier (`none` when the step is skipped) and the possibly
updated instance. -/
def computeOsString (self : MongoBinaryDownloadUrl) (probe : Except String OS) :
    Except String (Option String × MongoBinaryDownloadUrl) :=
  if self.platform = "linux" ∧ self.arch ≠ "i686" then
    match resolveOS self probe with
    | .ok (os, self2) =>
      match getLinuxOSVersionString os with
      | .ok s => .ok (some s, self2)
      | .error e => .error e
    | .error e => .error e
  else .ok (none, self)

/-- `getArchiveName`: platform segment, optional `-ssl`, arch segment unless
`src`, the Linux qualifier when the platform is `linux` and the arch is not
`i686` (resolving the OS descriptor first), then the version/extension
suffix (`-r{version}` for `src`).  `if (osString)` appends only a truthy,
i.e. non-empty, qualifier. -/
def getArchiveName (self : MongoBinaryDownloadUrl) (probe : Except String OS) :
    Except String (String × MongoBinaryDownloadUrl) :=
  let name := "mongodb-" ++ self.platform
  let name := if self.ssl then name ++ "-ssl" else name
  let name := if self.platform ≠ "src" then name ++ "-" ++ self.arch else name
  match computeOsString self probe with
  | .error e => .error e
  | .ok (osString, self2) =>
    let name :=
      match osString with
      | some s => if s ≠ "" then name ++ "-" ++ s else name
      | none => name
    let name :=
      if self2.platform ≠ "src" then
        name ++ "-" ++ self2.version ++ "." ++ getArchiveType self2
      else
        name ++ "-r" ++ self2.version ++ "." ++ getArchiveType self2
    .ok (name, self2)

/-- `getDownloadUrl`: `${DOWNLOAD_URI}/${this.platform}/${archive}`. -/
def getDownloadUrl (self : MongoBinaryDownloadUrl) (probe : Except String OS) :
    Except String (String × MongoBinaryDownloadUrl) :=
  match getArchiveName self probe with
  | .error e => .error e
  | .ok (archive, self2) =>
    .ok (DOWNLOAD_URI ++ "/" ++ self2.platform ++ "/" ++ archive, self2)

/-! ## Helper lemmas -/

theorem splitDot_ne_nil : ∀ cs : List Char, splitDot cs ≠ []
  | [] => by simp [splitDot]
  | c :: t => by
    simp only [splitDot]
    split
    · simp
    · split <;> simp

theorem splitDot_head (cs : List Char) :
    (splitDot cs).head? = some ⟨cs.takeWhile (fun c => c ≠ '.')⟩ := by
  induction cs with
  | nil => rfl
  | cons c t ih =>
    by_cases h : c = '.'
    · subst h
      simp [splitDot, List.takeWhile_cons]
    · rw [splitDot, if_neg h]
      cases hs : splitDot t with
      | nil => exact absurd hs (splitDot_ne_nil t)
      | cons s rest =>
        rw [hs] at ih
        simp only [List.head?] at ih ⊢
        simp only [Option.some.injEq] at ih
        subst ih
        simp [List.takeWhile_cons, h]

theorem ubuntu_major (r : String) :
    jsParseInt (if r ≠ "" then splitDot r.data else []).head? =
      jsParseIntStr ⟨r.data.takeWhile (fun c => c ≠ '.')⟩ := by
  by_cases h : r = ""
  · subst h
    decide
  · rw [if_pos h, splitDot_head]
    rfl

/-- The major version as the corrected claim words it: the portion of the
release before the first `.`, run through `parseInt`. -/
def majorBeforeDot (rel : Option String) : Option Int :=
  match rel with
  | none => none
  | some r => jsParseIntStr ⟨r.data.takeWhile (fun c => c ≠ '.')⟩

/-! ## Claims -/

/-- C1 counterexample: a CentOS descriptor with no release is classified as
RHEL/CentOS/Scientific, and the computed qualifier is the non-empty string
`"rhel"`, not the empty string the claim states. -/
theorem C1_counterexample :
    getLinuxOSVersionString ⟨"CentOS", none⟩ = .ok "rhel" ∧ ("rhel" : String) ≠ "" :=
  ⟨rfl, by decide⟩

/-- C1 (amended): for an OS descriptor classified RHEL/CentOS/Scientific
whose release is missing or does not begin with 7, 6 or 5, and for one
classified Fedora whose release parses outside the ranges `>18`, `12..18`
and `6..11` (including an unparseable release), the computed qualifier is
the bare string `"rhel"` — the prefix with no version digits appended — not
the empty string. -/
theorem C1_amended (os : OS) :
    ((os.release = none ∨ ∃ r, os.release = some r ∧ reTestStart "7" r = false ∧
        reTestStart "6" r = false ∧ reTestStart "5" r = false) →
      getRhelVersionString os = "rhel") ∧
    ((jsParseInt os.release = none ∨ ∃ n : Int, jsParseInt os.release = some n ∧
        ¬(n > 18) ∧ ¬(n ≥ 12 ∧ n ≤ 18) ∧ ¬(n ≥ 6 ∧ n ≤ 11)) →
      getFedoraVersionString os = "rhel") := by
  constructor
  · rintro (hnone | ⟨r, hr, h7, h6, h5⟩)
    · simp [getRhelVersionString, hnone]
    · simp [getRhelVersionString, hr, h7, h6, h5]
  · rintro (hnone | ⟨n, hn, h1, h2, h3⟩)
    · simp [getFedoraVersionString, hnone]
    · simp only [getFedoraVersionString, hn]
      split_ifs <;> first | rfl | (exfalso; omega)

/-- C1 amended witness: concrete RHEL-family and Fedora descriptors outside
every version range both yield the bare `"rhel"`. -/
theorem C1_amended_witness :
    getRhelVersionString ⟨"CentOS", some "4.9"⟩ = "rhel" ∧
    getFedoraVersionString ⟨"Fedora", some "5"⟩ = "rhel" :=
  ⟨(C1_amended ⟨"CentOS", some "4.9"⟩).1 (Or.inr ⟨"4.9", rfl, rfl, rfl, rfl⟩),
   (C1_amended ⟨"Fedora", some "5"⟩).2 (Or.inr ⟨5, rfl, by decide, by decide, by decide⟩)⟩

/-- C2 counterexample: a Suse-classified descriptor with a missing release
makes the qualifier computation fail with a TypeError (the source calls
`os.release.match` on `undefined`), contradicting the claim that it returns
the empty string rather than raising an error. -/
theorem C2_counterexample :
    getLinuxOSVersionString ⟨"SUSE Linux", none⟩ =
      .error "TypeError: Cannot read property 'match' of undefined" := rfl

/-- C2 (amended): for a Suse descriptor with a present release the
computation does not fail — `suse11`/`suse12` when the release begins with
`11`/`12`, the empty string otherwise — but a missing release raises a
TypeError instead of returning. -/
theorem C2_amended (os : OS) :
    (∀ r, os.release = some r →
        getSuseVersionString os =
          .ok (if reTestStart "11" r then "suse11"
               else if reTestStart "12" r then "suse12" else "")) ∧
    (os.release = none →
        getSuseVersionString os =
          .error "TypeError: Cannot read property 'match' of undefined") := by
  obtain ⟨d, rel⟩ := os
  cases rel with
  | none =>
    exact ⟨fun r hr => Option.noConfusion hr, fun _ => rfl⟩
  | some r0 =>
    refine ⟨?_, fun h => Option.noConfusion h⟩
    intro r hr
    injection hr with hr
    subst hr
    simp only [getSuseVersionString]
    split_ifs <;> rfl

/-- C2 amended witness: a present release beginning with `12` yields
`suse12`. -/
theorem C2_amended_witness :
    getSuseVersionString ⟨"SUSE", some "12.1"⟩ = .ok "suse12" := by
  have h := (C2_amended ⟨"SUSE", some "12.1"⟩).1 "12.1" rfl
  rw [h]
  rfl

/-- C4: the Debian qualifier is `debian81` when the release parses to a
value `≥ 8.1`, `debian71` when it parses `≥ 7.1` and `< 8.1`, and the bare
non-empty `"debian"` otherwise, including a missing or unparseable
release. -/
theorem C4 (os : OS) :
    (∀ x, jsParseFloat os.release = some x → x.ge 81 10 = true →
        getDebianVersionString os = "debian81") ∧
    (∀ x, jsParseFloat os.release = some x → x.ge 81 10 = false → x.ge 71 10 = true →
        getDebianVersionString os = "debian71") ∧
    ((jsParseFloat os.release = none ∨
        ∃ x, jsParseFloat os.release = some x ∧ x.ge 81 10 = false ∧ x.ge 71 10 = false) →
      getDebianVersionString os = "debian") ∧
    getDebianVersionString os ≠ "" := by
  refine ⟨?_, ?_, ?_, ?_⟩
  · intro x hx hge
    simp [getDebianVersionString, hx, hge]
  · intro x hx h81 h71
    simp [getDebianVersionString, hx, h81, h71]
  · rintro (hnone | ⟨x, hx, h81, h71⟩)
    · simp [getDebianVersionString, hnone]
    · simp [getDebianVersionString, hx, h81, h71]
  · rcases hx : jsParseFloat os.release with _ | x
    · simp only [getDebianVersionString, hx]
      decide
    · simp only [getDebianVersionString, hx]
      split_ifs <;> decide

/-- C4 witness: release `8.1` parses exactly to 81/10 and yields
`debian81`. -/
theorem C4_witness : getDebianVersionString ⟨"Debian", some "8.1"⟩ = "debian81" :=
  (C4 ⟨"Debian", some "8.1"⟩).1 ⟨81, 1⟩ rfl rfl

/-- C7: a raw platform outside the recognized set, without a Raspbian
override, makes construction fail synchronously with the unsupported-OS
error carrying the offending platform value; no resolver instance (and so
no archive name or URL) is produced. -/
theorem C7 (opts : MongoBinaryDownloadUrlOpts)
    (hp : opts.platform ∉ (["darwin", "win32", "linux", "elementary OS", "sunos"] : List String))
    (hos : osIsRaspbian opts.os = false) :
    mkMongoBinaryDownloadUrl opts = .error ("unsupported OS " ++ opts.platform) := by
  simp only [List.mem_cons, List.mem_singleton, not_or] at hp
  obtain ⟨h1, h2, h3, h4, h5⟩ := hp
  simp [mkMongoBinaryDownloadUrl, translatePlatform, hos, h1, h2, h3, h4, h5]

/-- C7 witness: platform `irix` is rejected at construction. -/
theorem C7_witness :
    mkMongoBinaryDownloadUrl ⟨"4.0.0", "irix", "x64", false, none⟩ =
      .error ("unsupported OS " ++ "irix") :=
  C7 _ (by decide) rfl

/-- C10: a Raspbian OS descriptor together with raw arch `ia32` makes
construction fail with the plain unsupported-architecture error for every
raw platform (in particular `linux` and `win32`), because the platform is
first overridden to `src`, which accepts no 32-bit arch. -/
theorem C10 (opts : MongoBinaryDownloadUrlOpts) (o : OS) (hos : opts.os = some o)
    (hdist : o.dist = "Raspbian") (harch : opts.arch = "ia32") :
    mkMongoBinaryDownloadUrl opts = .error "unsupported architecture" := by
  simp [mkMongoBinaryDownloadUrl, translatePlatform, translateArch, osIsRaspbian,
    hos, hdist, harch]

/-- C10 witness: Raspbian plus `ia32` on raw platform `linux` fails even
though `linux` accepts `ia32` without the override. -/
theorem C10_witness :
    mkMongoBinaryDownloadUrl ⟨"4.0.0", "linux", "ia32", false, some ⟨"Raspbian", some "9"⟩⟩ =
      .error "unsupported architecture" :=
  C10 _ ⟨"Raspbian", some "9"⟩ rfl rfl rfl

/-- C3: the Ubuntu qualifier is `"ubuntu"` followed by the exact-match
special cases `12.04`/`14.04`/`14.10`, then `1404` when the portion before
the first `.` parses to 14, then `1604` for exact `16.04` or major version
16, and `1404` for any other or unknown release; in particular it is never
empty. -/
theorem C3 (os : OS) :
    getUbuntuVersionString os =
      "ubuntu" ++
        (if os.release = some "12.04" then "1204"
         else if os.release = some "14.04" then "1404"
         else if os.release = some "14.10" then "1410-clang"
         else if majorBeforeDot os.release = some 14 then "1404"
         else if os.release = some "16.04" ∨ majorBeforeDot os.release = some 16 then "1604"
         else "1404") ∧
    getUbuntuVersionString os ≠ "" := by
  obtain ⟨d, rel⟩ := os
  refine ⟨?_, ?_⟩
  · cases rel with
    | none => rfl
    | some r =>
      simp only [getUbuntuVersionString, majorBeforeDot]
      rw [ubuntu_major]
      split_ifs <;> first | rfl | tauto
  · simp only [getUbuntuVersionString]
    split_ifs <;> decide

theorem computeOsString_char (self : MongoBinaryDownloadUrl) (probe : Except String OS)
    (osString : Option String) (self2 : MongoBinaryDownloadUrl)
    (h : computeOsString self probe = .ok (osString, self2)) :
    (self2.platform = self.platform ∧ self2.arch = self.arch ∧ self2.ssl = self.ssl ∧
      self2.version = self.version) ∧
    ((self.platform = "linux" ∧ self.arch ≠ "i686" ∧
        ∃ os q, self2.os = some os ∧ getLinuxOSVersionString os = .ok q ∧ osString = some q) ∨
      (¬(self.platform = "linux" ∧ self.arch ≠ "i686") ∧ osString = none ∧ self2 = self)) ∧
    (∀ o, self.os = some o → self2 = self) ∧
    (self.os = none → self2.os = none ∨ ∃ os, probe = .ok os ∧ self2.os = some os) := by
  unfold computeOsString at h
  split_ifs at h with hc
  · rcases hos : self.os with _ | o
    · rcases hprobe : probe with e | o2
      · simp [resolveOS, hos, hprobe] at h
      · rcases hq : getLinuxOSVersionString o2 with e | q
        · simp [resolveOS, hos, hprobe, hq] at h
        · simp only [resolveOS, hos, hprobe, hq, Except.ok.injEq, Prod.mk.injEq] at h
          obtain ⟨hosS, hself⟩ := h
          subst hosS
          subst hself
          refine ⟨⟨rfl, rfl, rfl, rfl⟩, Or.inl ⟨hc.1, hc.2, o2, q, rfl, hq, rfl⟩, ?_, ?_⟩
          · intro o' ho'
            exact Option.noConfusion ho'
          · intro _
            exact Or.inr ⟨o2, rfl, rfl⟩
    · simp only [resolveOS, hos] at h
      rcases hq : getLinuxOSVersionString o with e | q
      · simp [hq] at h
      · simp only [hq, Except.ok.injEq, Prod.mk.injEq] at h
        obtain ⟨hosS, hself⟩ := h
        subst hosS
        subst hself
        refine ⟨⟨rfl, rfl, rfl, rfl⟩, Or.inl ⟨hc.1, hc.2, o, q, hos, hq, rfl⟩,
          fun _ _ => rfl, ?_⟩
        intro hn
        exact Option.noConfusion hn
  · simp only [Except.ok.injEq, Prod.mk.injEq] at h
    obtain ⟨hosS, hself⟩ := h
    subst hosS
    subst hself
    exact ⟨⟨rfl, rfl, rfl, rfl⟩, Or.inr ⟨hc, rfl, rfl⟩, fun _ _ => rfl, fun hn => Or.inl hn⟩

/-- C5: the archive name is `mongodb-{platform}`, then `-ssl` iff the ssl
flag is set, then `-{arch}` unless the platform is `src`, then a
`-{qualifier}` segment iff a Linux qualifier was computed and is non-empty,
then `-r{version}.tar.gz` for `src` and `-{version}.{ext}` otherwise with
`ext` `zip` for win32 and `tgz` for every other non-src platform. -/
theorem C5 (opts : MongoBinaryDownloadUrlOpts) (self : MongoBinaryDownloadUrl)
    (_hmk : mkMongoBinaryDownloadUrl opts = .ok self)
    (probe : Except String OS) (name : String) (self2 : MongoBinaryDownloadUrl)
    (h : getArchiveName self probe = .ok (name, self2)) :
    ∃ qualSeg : String,
      name = "mongodb-" ++ self.platform ++ (if self.ssl then "-ssl" else "") ++
          (if self.platform = "src" then "" else "-" ++ self.arch) ++ qualSeg ++
          (if self.platform = "src" then "-r" ++ self.version ++ "." ++ "tar.gz"
           else "-" ++ self.version ++ "." ++
             (if self.platform = "win32" then "zip" else "tgz")) ∧
      ((self.platform = "linux" ∧ self.arch ≠ "i686" ∧
          ∃ os q, self2.os = some os ∧ getLinuxOSVersionString os = .ok q ∧
            qualSeg = (if q = "" then "" else "-" ++ q)) ∨
       (¬(self.platform = "linux" ∧ self.arch ≠ "i686") ∧ qualSeg = "")) := by
  simp only [getArchiveName] at h
  rcases hstep : computeOsString self probe with e | ⟨osString, self2x⟩
  · rw [hstep] at h
    exact Except.noConfusion h
  · rw [hstep] at h
    simp only [Except.ok.injEq, Prod.mk.injEq] at h
    obtain ⟨hname, hself⟩ := h
    subst hself
    subst hname
    obtain ⟨⟨hplat, harch, hssl, hver⟩, hdisj, hwrite, hnone⟩ :=
      computeOsString_char self probe osString self2x hstep
    rcases hdisj with ⟨hp, ha, os0, q, hos2, hq, hosS⟩ | ⟨hnc, hosS, hselfeq⟩
    · subst hosS
      refine ⟨(if q = "" then "" else "-" ++ q), ?_,
        Or.inl ⟨hp, ha, os0, q, hos2, hq, rfl⟩⟩
      by_cases hqe : q = ""
      · subst hqe
        simp [hp, hplat, hver, getArchiveType, String.append_empty]
        split_ifs <;> first | rfl | simp [← String.append_assoc]
      · simp [hp, hplat, hver, hqe, getArchiveType]
        split_ifs <;> first | rfl | simp [← String.append_assoc]
    · subst hosS
      rw [hselfeq]
      refine ⟨"", ?_, Or.inr ⟨hnc, rfl⟩⟩
      by_cases hsrc : self.platform = "src"
      · simp [hsrc, getArchiveType, String.append_empty]
        split_ifs <;> first | rfl | simp [← String.append_assoc]
      · by_cases hwin : self.platform = "win32"
        · simp [hsrc, hwin, getArchiveType, String.append_empty]
          split_ifs <;> first | rfl | simp [← String.append_assoc]
        · simp [hsrc, hwin, getArchiveType, String.append_empty]
          split_ifs <;> first | rfl | simp [← String.append_assoc]

/-- C5 witness: the darwin/x64 example resolves, and its archive name
carries an empty qualifier segment. -/
theorem C5_witness :
    ∃ qualSeg : String,
      ("mongodb-osx-x86_64-4.0.0.tgz" : String) =
        "mongodb-osx-x86_64" ++ qualSeg ++ "-4.0.0.tgz" ∧ qualSeg = "" := by
  obtain ⟨q, hname, hcase⟩ := C5 ⟨"4.0.0", "darwin", "x64", false, none⟩
    ⟨"osx", "x86_64", false, "4.0.0", none⟩ rfl (.error "probe failed")
    "mongodb-osx-x86_64-4.0.0.tgz" ⟨"osx", "x86_64", false, "4.0.0", none⟩ rfl
  rcases hcase with ⟨hp, -⟩ | ⟨-, hq⟩
  · exact absurd hp (by decide)
  · subst hq
    exact ⟨"", by decide, rfl⟩

/-- C6: the download URL is exactly the fixed base, the normalized platform
and the archive name of the same configuration, joined by slashes; an
archive-name failure propagates unchanged. -/
theorem C6 (self : MongoBinaryDownloadUrl) (probe : Except String OS) :
    (∀ archive self2, getArchiveName self probe = .ok (archive, self2) →
        getDownloadUrl self probe =
          .ok (DOWNLOAD_URI ++ "/" ++ self.platform ++ "/" ++ archive, self2)) ∧
    (∀ e, getArchiveName self probe = .error e → getDownloadUrl self probe = .error e) := by
  constructor
  · intro archive self2 h
    have hplat : self2.platform = self.platform := by
      simp only [getArchiveName] at h
      rcases hstep : computeOsString self probe with e | ⟨osString, self2x⟩
      · rw [hstep] at h
        exact Except.noConfusion h
      · rw [hstep] at h
        simp only [Except.ok.injEq, Prod.mk.injEq] at h
        obtain ⟨-, hself⟩ := h
        subst hself
        exact (computeOsString_char self probe osString self2x hstep).1.1
    simp only [getDownloadUrl, h]
    rw [hplat]
  · intro e h
    simp [getDownloadUrl, h]

/-- C6 witness: the darwin/x64 example URL is the base, platform and
archive name joined by slashes. -/
theorem C6_witness :
    getDownloadUrl ⟨"osx", "x86_64", false, "4.0.0", none⟩ (.error "probe failed") =
      .ok (DOWNLOAD_URI ++ "/" ++ "osx" ++ "/" ++ "mongodb-osx-x86_64-4.0.0.tgz",
        ⟨"osx", "x86_64", false, "4.0.0", none⟩) :=
  (C6 ⟨"osx", "x86_64", false, "4.0.0", none⟩ (.error "probe failed")).1
    "mongodb-osx-x86_64-4.0.0.tgz" ⟨"osx", "x86_64", false, "4.0.0", none⟩ rfl

/-- C8: a successful archive-name computation preserves the platform, arch,
ssl and version fields; when the descriptor was already present the
instance is unchanged, and when it was absent the slot is either still
empty or holds exactly the probe result (write-once); afterwards the
computation no longer depends on the probe, so the probe is consulted at
most once per instance. -/
theorem C8 (self : MongoBinaryDownloadUrl) (probe : Except String OS)
    (name : String) (self2 : MongoBinaryDownloadUrl)
    (h : getArchiveName self probe = .ok (name, self2)) :
    self2.platform = self.platform ∧ self2.arch = self.arch ∧ self2.ssl = self.ssl ∧
    self2.version = self.version ∧
    (∀ o, self.os = some o → self2 = self) ∧
    (self.os = none → self2.os = none ∨ ∃ os, probe = .ok os ∧ self2.os = some os) ∧
    (∀ p2 p3, getArchiveName self2 p2 = getArchiveName self2 p3) := by
  simp only [getArchiveName] at h
  rcases hstep : computeOsString self probe with e | ⟨osString, self2x⟩
  · rw [hstep] at h
    exact Except.noConfusion h
  · rw [hstep] at h
    simp only [Except.ok.injEq, Prod.mk.injEq] at h
    obtain ⟨-, hself⟩ := h
    subst hself
    obtain ⟨⟨hplat, harch, hssl, hver⟩, hdisj, hwrite, hnone⟩ :=
      computeOsString_char self probe osString self2x hstep
    refine ⟨hplat, harch, hssl, hver, hwrite, hnone, ?_⟩
    intro p2 p3
    have hind : computeOsString self2x p2 = computeOsString self2x p3 := by
      rcases hdisj with ⟨hp, ha, os0, q, hos2, hq, -⟩ | ⟨hnc, -, hselfeq⟩
      · have hc2 : self2x.platform = "linux" ∧ self2x.arch ≠ "i686" :=
          ⟨hplat.trans hp, by rw [harch]; exact ha⟩
        unfold computeOsString
        rw [if_pos hc2, if_pos hc2]
        simp [resolveOS, hos2]
      · have hc2 : ¬(self2x.platform = "linux" ∧ self2x.arch ≠ "i686") := by
          rw [hselfeq]
          exact hnc
        simp [computeOsString, hc2]
    simp only [getArchiveName, hind]

/-- C8 witness: after one successful archive-name computation populated the
descriptor slot from the probe, a second computation is independent of the
probe it is handed. -/
theorem C8_witness :
    getArchiveName ⟨"linux", "x86_64", false, "4.0.0", some ⟨"Ubuntu", some "16.04"⟩⟩
        (.ok ⟨"Debian", some "9"⟩) =
      getArchiveName ⟨"linux", "x86_64", false, "4.0.0", some ⟨"Ubuntu", some "16.04"⟩⟩
        (.error "probe failed") :=
  (C8 ⟨"linux", "x86_64", false, "4.0.0", none⟩ (.ok ⟨"Ubuntu", some "16.04"⟩)
      "mongodb-linux-x86_64-ubuntu1604-4.0.0.tgz"
      ⟨"linux", "x86_64", false, "4.0.0", some ⟨"Ubuntu", some "16.04"⟩⟩ rfl).2.2.2.2.2.2
    (.ok ⟨"Debian", some "9"⟩) (.error "probe failed")

/-- C9: a Linux descriptor matching none of the recognized distributions is
not an error: the warning fires, the legacy fallback yields the empty
qualifier, and the archive name is produced without any qualifier
segment. -/
theorem C9 (os : OS) (h : knownDist os.dist = false) :
    linuxWarningLogged os = true ∧
    getLinuxOSVersionString os = .ok (getLegacyVersionString os) ∧
    getLegacyVersionString os = "" ∧
    (∀ (self : MongoBinaryDownloadUrl) (probe : Except String OS),
        self.platform = "linux" → self.arch ≠ "i686" → self.os = some os →
        getArchiveName self probe =
          .ok ("mongodb-" ++ "linux" ++ (if self.ssl then "-ssl" else "") ++
                ("-" ++ self.arch) ++ ("-" ++ self.version ++ "." ++ "tgz"), self)) := by
  simp only [knownDist, Bool.or_eq_false_iff] at h
  obtain ⟨⟨⟨⟨⟨⟨⟨⟨h1, h2⟩, h3⟩, h4⟩, h5⟩, h6⟩, h7⟩, h8⟩, h9⟩ := h
  have hlinux : getLinuxOSVersionString os = .ok (getLegacyVersionString os) := by
    simp [getLinuxOSVersionString, h1, h2, h3, h4, h5, h6, h7, h8, h9]
  refine ⟨?_, hlinux, rfl, ?_⟩
  · simp [linuxWarningLogged, knownDist, h1, h2, h3, h4, h5, h6, h7, h8, h9]
  · intro self probe hp ha hos
    have hlx : getLinuxOSVersionString os = .ok "" := hlinux
    simp only [getArchiveName, computeOsString, resolveOS, hos]
    rw [if_pos ⟨hp, ha⟩]
    simp [hlx, hp, getArchiveType, String.append_empty]
    split_ifs <;> first | rfl | simp [← String.append_assoc]

/-- C9 witness: the Arch Linux example resolves with no qualifier
segment. -/
theorem C9_witness :
    getArchiveName ⟨"linux", "x86_64", false, "4.0.0", some ⟨"Arch Linux", none⟩⟩
        (.error "probe failed") =
      .ok ("mongodb-linux-x86_64-4.0.0.tgz",
        ⟨"linux", "x86_64", false, "4.0.0", some ⟨"Arch Linux", none⟩⟩) := by
  have h := (C9 ⟨"Arch Linux", none⟩ (by decide)).2.2.2
    ⟨"linux", "x86_64", false, "4.0.0", some ⟨"Arch Linux", none⟩⟩ (.error "probe failed")
    rfl (by decide) rfl
  rw [h]
  rfl
